import Mathlib

/-!
Verification of the compliance scheduling and execution core
(task calendar, schedule parsing, future-run projection, single-flight
execution dispatch, generation-based cancellation).

The repository ships the gtest suite for the engine
(`src/unnamed/part_000`); the engine itself is an external Go service
not present under `src/`.  Consequently the executable definitions
below are modelled from the design document, with all concrete
constants (expected future-run sequences, exact error-message
templates, failure-detail formats, metric line shapes) taken from the
test source.
-/

namespace Compliance

/-! ## Calendar arithmetic

Proleptic Gregorian calendar, UTC only (the engine works exclusively
with `Z`-suffixed instants).  `daysFromCivil`/`civilFromDays` are the
standard era-based conversions between a civil date and a day count
(here: days since 0000-03-01). -/

def isLeap (y : Nat) : Bool :=
  y % 4 == 0 && (y % 100 != 0 || y % 400 == 0)

def daysInMonth (y m : Nat) : Nat :=
  if m = 2 then (if isLeap y then 29 else 28)
  else if m = 4 ∨ m = 6 ∨ m = 9 ∨ m = 11 then 30
  else 31

/-- A civil UTC instant (second precision), as the engine renders and
parses them: `YYYY-MM-DDTHH:MM:SSZ`. -/
structure DT where
  year : Nat
  month : Nat
  day : Nat
  hour : Nat
  minute : Nat
  second : Nat
  deriving DecidableEq, Repr

/-- Days since 0000-03-01 of a civil date (era-based conversion). -/
def daysFromCivil (y m d : Nat) : Nat :=
  let y2 := if m ≤ 2 then y - 1 else y
  let era := y2 / 400
  let yoe := y2 % 400
  let mp := (m + 9) % 12
  let doy := (153 * mp + 2) / 5 + d - 1
  let doe := yoe * 365 + yoe / 4 - yoe / 100 + doy
  era * 146097 + doe

/-- Civil date from a day count (inverse of `daysFromCivil`). -/
def civilFromDays (z : Nat) : Nat × Nat × Nat :=
  let era := z / 146097
  let doe := z % 146097
  let yoe := (doe - doe / 1460 + doe / 36524 - doe / 146096) / 365
  let y := yoe + era * 400
  let doy := doe - (365 * yoe + yoe / 4 - yoe / 100)
  let mp := (5 * doy + 2) / 153
  let d := doy - (153 * mp + 2) / 5 + 1
  let m := if mp < 10 then mp + 3 else mp - 9
  (if m ≤ 2 then y + 1 else y, m, d)

/-- Seconds since 0000-03-01T00:00:00Z. Orders instants chronologically. -/
def toTs (t : DT) : Nat :=
  daysFromCivil t.year t.month t.day * 86400
    + t.hour * 3600 + t.minute * 60 + t.second

/-- Instant from a second count (inverse of `toTs`). -/
def fromTs (n : Nat) : DT :=
  let z := n / 86400
  let rem := n % 86400
  let c := civilFromDays z
  { year := c.1, month := c.2.1, day := c.2.2,
    hour := rem / 3600, minute := rem % 3600 / 60, second := rem % 60 }

/-- Calendar month advance: same day-of-month in the following month
(clamped to the target month length), as the schedule semantics
require for `P1M`. -/
def addMonth (t : DT) : DT :=
  let y := if t.month = 12 then t.year + 1 else t.year
  let m := if t.month = 12 then 1 else t.month + 1
  { t with year := y, month := m, day := min t.day (daysInMonth y m) }

def addMonths : Nat → DT → DT
  | 0, t => t
  | n + 1, t => addMonths n (addMonth t)

def addSeconds (n : Nat) (t : DT) : DT := fromTs (toTs t + n)

/-! ## Schedule grammar

`[anchor/]["R"N"/"]period` per interval; a schedule is one interval
token or a bracketed, comma-separated union of tokens.  Fixed-time
durations are `PT` hours/minutes/seconds; calendar durations are `P`
days/weeks/months. -/

inductive Period where
  | secs (n : Nat)
  | days (n : Nat)
  | weeks (n : Nat)
  | months (n : Nat)
  deriving DecidableEq, Repr

def Period.isCalendar : Period → Bool
  | .secs _ => false
  | _ => true

def addPeriod : Period → DT → DT
  | .secs n, t => addSeconds n t
  | .days n, t => addSeconds (n * 86400) t
  | .weeks n, t => addSeconds (n * 7 * 86400) t
  | .months n, t => addMonths n t

inductive AnchorSpec where
  | unanchored
  | timeOfDay (h mi s : Nat)
  | absolute (t : DT)
  deriving DecidableEq, Repr

structure IntervalSpec where
  anchor : AnchorSpec
  rbound : Option Nat
  period : Period
  deriving DecidableEq, Repr

def isDigitCh (c : Char) : Bool := 48 ≤ c.toNat && c.toNat ≤ 57

def digitVal (c : Char) : Nat := c.toNat - 48

def digitsToNat (l : List Char) : Nat :=
  l.foldl (fun acc c => acc * 10 + digitVal c) 0

/-- Greedily read a nonempty digit sequence. -/
def readNat (l : List Char) : Option (Nat × List Char) :=
  let d := l.takeWhile isDigitCh
  if d.isEmpty then none else some (digitsToNat d, l.dropWhile isDigitCh)

/-- Read exactly two digits. -/
def read2 : List Char → Option (Nat × List Char)
  | a :: b :: rest =>
    if isDigitCh a && isDigitCh b then
      some (digitVal a * 10 + digitVal b, rest)
    else none
  | _ => none

/-- Read exactly four digits. -/
def read4 : List Char → Option (Nat × List Char)
  | a :: b :: c :: d :: rest =>
    if isDigitCh a && isDigitCh b && isDigitCh c && isDigitCh d then
      some (digitVal a * 1000 + digitVal b * 100 + digitVal c * 10 + digitVal d, rest)
    else none
  | _ => none

/-- Parse `HH:MM:SSZ` (entire input), validating field ranges. -/
def parseTod (l : List Char) : Option (Nat × Nat × Nat) :=
  match read2 l with
  | some (h, ':' :: l1) =>
    match read2 l1 with
    | some (mi, ':' :: l2) =>
      match read2 l2 with
      | some (s, ['Z']) =>
        if h ≤ 23 && mi ≤ 59 && s ≤ 59 then some (h, mi, s) else none
      | _ => none
    | _ => none
  | _ => none

/-- Parse a full `YYYY-MM-DDTHH:MM:SSZ` timestamp (entire input). -/
def parseStamp (l : List Char) : Option DT :=
  match read4 l with
  | some (y, '-' :: l1) =>
    match read2 l1 with
    | some (mo, '-' :: l2) =>
      match read2 l2 with
      | some (d, 'T' :: l3) =>
        match parseTod l3 with
        | some (h, mi, s) =>
          if 1 ≤ mo && mo ≤ 12 && 1 ≤ d && d ≤ daysInMonth y mo then
            some { year := y, month := mo, day := d,
                   hour := h, minute := mi, second := s }
          else none
        | none => none
      | _ => none
    | _ => none
  | _ => none

/-- Fixed-time duration body after `PT`: components in `H`,`M`,`S`
order, each at most once, at least one present, nothing left over.
Returns total seconds. -/
def parsePTAux : List (Char × Nat) → List Char → Option Nat
  | _, [] => some 0
  | [], _ :: _ => none
  | (u, w) :: units, l =>
    match readNat l with
    | none => none
    | some (n, l2) =>
      match l2 with
      | [] => none
      | c :: l3 =>
        if c = u then (parsePTAux units l3).map (fun s => n * w + s)
        else parsePTAux units l

def ptUnits : List (Char × Nat) := [('H', 3600), ('M', 60), ('S', 1)]

/-- Strict ISO-8601-flavored duration: `PT` fixed durations or `P`
calendar durations.  Leading junk, trailing junk, negative amounts and
unknown unit letters are all rejected. -/
def parseDuration (l : List Char) : Option Period :=
  match l with
  | 'P' :: 'T' :: body =>
    if body.isEmpty then none
    else (parsePTAux ptUnits body).map Period.secs
  | 'P' :: body =>
    match readNat body with
    | some (n, ['D']) => some (.days n)
    | some (n, ['W']) => some (.weeks n)
    | some (n, ['M']) => some (.months n)
    | _ => none
  | _ => none

/-- Parse an `R<digits>` repetition bound (entire input). -/
def parseRBound (l : List Char) : Option Nat :=
  match l with
  | 'R' :: ds =>
    if ds.isEmpty then none
    else if ds.all isDigitCh then some (digitsToNat ds) else none
  | _ => none

/-- Anchor component: empty (registration time), bare time-of-day, or
an absolute timestamp. -/
def parseAnchor (l : List Char) : Option AnchorSpec :=
  match l with
  | [] => some .unanchored
  | _ =>
    match parseStamp l with
    | some t => some (.absolute t)
    | none =>
      match parseTod l with
      | some (h, mi, s) => some (.timeOfDay h mi s)
      | none => none

def splitOnCh (sep : Char) (l : List Char) : List (List Char) :=
  l.foldr
    (fun c acc =>
      match acc with
      | [] => [[c]]
      | cur :: rest => if c = sep then [] :: cur :: rest else (c :: cur) :: rest)
    [[]]

def trimSp (l : List Char) : List Char :=
  ((l.dropWhile (· = ' ')).reverse.dropWhile (· = ' ')).reverse

/-- One interval token, `[anchor/]["R"N"/"]period`. -/
def parseIntervalTok (l : List Char) : Option IntervalSpec :=
  match splitOnCh '/' l with
  | [p] =>
    (parseDuration p).map (fun per => ⟨.unanchored, none, per⟩)
  | [a, p] =>
    match parseDuration p with
    | none => none
    | some per =>
      match parseRBound a with
      | some b => some ⟨.unanchored, some b, per⟩
      | none => (parseAnchor a).map (fun an => ⟨an, none, per⟩)
  | [a, r, p] =>
    match parseDuration p, parseRBound r, parseAnchor a with
    | some per, some b, some an => some ⟨an, some b, per⟩
    | _, _, _ => none
  | _ => none

/-- A schedule: one interval token, or a bracketed comma-separated
list of tokens evaluated independently and unioned. -/
def parseSchedule (s : String) : Option (List IntervalSpec) :=
  let cs := s.data
  let toks : Option (List (List Char)) :=
    match cs with
    | '[' :: rest =>
      match rest.reverse with
      | ']' :: mid => some ((splitOnCh ',' mid.reverse).map trimSp)
      | _ => none
    | _ => some [cs]
  match toks with
  | none => none
  | some ts =>
    let parsed := ts.map parseIntervalTok
    if parsed.all Option.isSome then some (parsed.filterMap id) else none

/-! ## Future-run projection

Modelled from the spec: for each `IntervalSpec` generate the sequence
of candidate fire instants starting at its anchor (bare times of day
combine with the reference date; a missing anchor is the reference
instant itself) and advancing by its period, truncated to `N+1`
elements when an `R N` bound is present; drop the candidates before
the reference, merge everything into one chronologically sorted
sequence, de-duplicate by instant, and take the first `count`
entries.  Generation is fuel-bounded (the fuel only limits how far
each lazy candidate stream is unrolled). -/

def iterChain (f : DT → DT) : DT → Nat → List DT
  | _, 0 => []
  | a, n + 1 => a :: iterChain f (f a) n

def resolveAnchor (start : DT) : AnchorSpec → DT
  | .unanchored => start
  | .timeOfDay h mi s => { start with hour := h, minute := mi, second := s }
  | .absolute t => t

def chainLen (fuel : Nat) : Option Nat → Nat
  | none => fuel
  | some b => min (b + 1) fuel

/-- The candidate fire instants of one interval at or after `start`. -/
def intervalRuns (i : IntervalSpec) (start : DT) (fuel : Nat) : List DT :=
  (iterChain (addPeriod i.period) (resolveAnchor start i.anchor)
      (chainLen fuel i.rbound)).dropWhile
    (fun t => decide (toTs t < toTs start))

/-- Insertion step of the chronological sort (insertion sort keeps
every definition structurally recursive, hence kernel-evaluable). -/
def insertByKey {α : Type} (key : α → Nat) (x : α) : List α → List α
  | [] => [x]
  | y :: ys => if key x ≤ key y then x :: y :: ys else y :: insertByKey key x ys

def sortByKey {α : Type} (key : α → Nat) (l : List α) : List α :=
  l.foldr (insertByKey key) []

def dedupAdjAux (prev : DT) : List DT → List DT
  | [] => []
  | y :: ys => if toTs prev = toTs y then dedupAdjAux prev ys else y :: dedupAdjAux y ys

/-- Remove adjacent duplicates (by instant value) from a sorted list. -/
def dedupAdj : List DT → List DT
  | [] => []
  | x :: xs => x :: dedupAdjAux x xs

def projFuelPad : Nat := 40

/-- `project`: the pure future-run projection over a parsed schedule. -/
def project (spec : List IntervalSpec) (start : DT) (count : Nat) : List DT :=
  let streams := spec.map (fun i => intervalRuns i start (count + projFuelPad))
  (dedupAdj (sortByKey toTs (streams.foldr (· ++ ·) []))).take count

/-! ## Rendering and the GetFutureRuns query -/

def pad2 (n : Nat) : String := (if n < 10 then "0" else "") ++ Nat.repr n

def pad4 (n : Nat) : String :=
  (if n < 10 then "000" else if n < 100 then "00" else if n < 1000 then "0" else "")
    ++ Nat.repr n

def fmtDT (t : DT) : String :=
  pad4 t.year ++ "-" ++ pad2 t.month ++ "-" ++ pad2 t.day ++ "T"
    ++ pad2 t.hour ++ ":" ++ pad2 t.minute ++ ":" ++ pad2 t.second ++ "Z"

/-- Template of the strict-parse failure, exactly as the tests assert it. -/
def durationParseError (raw : String) : String :=
  "Could not parse duration from schedule " ++ raw ++ ": did not match expected pattern"

/-- Modelled from the spec: the `GetFutureRuns` query of the control
surface (the Go handler is not in the repository), a pure projection
over a single task's schedule from an explicit reference instant. -/
def get_future_runs (schedule : String) (start : String) (numRuns : Nat) :
    Except String (List String) :=
  match parseStamp start.data with
  | none => .error ("Could not parse start time " ++ start)
  | some ref =>
    match parseSchedule schedule with
    | none => .error (durationParseError schedule)
    | some spec => .ok ((project spec ref numRuns).map fmtDT)

/-! ## Live scheduling of one task

Modelled from the spec: on activation a task fires once immediately
("run now"), and additionally at every instant its interval streams
project strictly after the activation instant.  A fire that arrives
while the previous run is still executing is dropped silently.  Times
are seconds relative to activation. -/

def liveFuel : Nat := 240

/-- Fire offsets (seconds after activation) contributed by the
interval streams of a schedule, chronologically sorted. -/
def liveFireTimes (spec : List IntervalSpec) (start : DT) : List Nat :=
  let streams := spec.map (fun i =>
    ((iterChain (addPeriod i.period) (resolveAnchor start i.anchor)
        (chainLen liveFuel i.rbound)).filter
      (fun t => decide (toTs start < toTs t))).map (fun t => toTs t - toTs start))
  sortByKey id (streams.foldr (· ++ ·) [])

/-- The run-now trigger plus the projected interval fires. -/
def activationFires (spec : List IntervalSpec) (start : DT) : List Nat :=
  0 :: liveFireTimes spec start

structure SimAcc where
  busyUntil : Nat
  completions : List Nat
  deriving DecidableEq, Repr

/-- Single-flight fire handling: a fire while the previous run is
still executing (before `busyUntil`) is dropped silently; otherwise
the module runs for `sleep` seconds and completes. -/
def simStep (sleep : Nat) (acc : SimAcc) (t : Nat) : SimAcc :=
  if t < acc.busyUntil then acc
  else { busyUntil := t + sleep, completions := acc.completions ++ [t + sleep] }

/-- Completion times of the runs actually executed, given the sorted
fire times of one task and its module execution time. -/
def runCompletions (sleep : Nat) (fires : List Nat) : List Nat :=
  (fires.foldl (simStep sleep) ⟨0, []⟩).completions

inductive OutKind where
  | result
  | event
  | metric
  deriving DecidableEq, Repr

/-- Each completed (non-canceled, non-skipped) run delivers one
result, one event and one metric. -/
def completionOutputs (ts : List Nat) : List (Nat × OutKind) :=
  ts.flatMap (fun t => [(t, .result), (t, .event), (t, .metric)])

/-- Reference activation instant used for concrete live-scheduling
scenarios (its value is irrelevant to the relative fire offsets). -/
def simStart : DT :=
  { year := 2018, month := 11, day := 14, hour := 0, minute := 0, second := 0 }

/-- Everything one activated task delivers, by completion offset and
kind, given its schedule string and module execution time. -/
def activationOutputs (schedule : String) (sleep : Nat) : List (Nat × OutKind) :=
  match parseSchedule schedule with
  | none => []
  | some spec => completionOutputs (runCompletions sleep (activationFires spec simStart))

/-! ## The scheduler engine as a labelled transition system

Modelled from the spec: one generation of tasks is live at a time;
`startGen` supersedes the previous generation, canceling its in-flight
runs and pending timers; a fire creates a run only for a task of the
live generation that is not already running; a completion delivers
output only if the run was never canceled.  Failed runs deliver a
failing result only when the generation was started with
`send_failed_results` (a `Start`-request field visible in the test
source). -/

structure RunId where
  gen : Nat
  task : Nat
  deriving DecidableEq, Repr

structure Output where
  gen : Nat
  task : Nat
  kind : OutKind
  ok : Bool
  deriving DecidableEq, Repr

structure EngineSt where
  curGen : Nat
  active : List Nat
  sendFailed : Bool
  running : List RunId
  delivered : List Output
  deriving DecidableEq, Repr

inductive Ev where
  | startGen (tasks : List Nat) (sendFailed : Bool)
  | fire (t : Nat)
  | complete (r : RunId) (ok : Bool)
  deriving DecidableEq, Repr

def isStartGen : Ev → Bool
  | .startGen _ _ => true
  | _ => false

/-- Outputs of one completed run: a successful run delivers its
result, event and metric; a failed run delivers a failing result when
the generation sends failed results, and nothing otherwise. -/
def outsFor (r : RunId) (ok sendFailed : Bool) : List Output :=
  if ok then
    [⟨r.gen, r.task, .result, true⟩, ⟨r.gen, r.task, .event, true⟩,
     ⟨r.gen, r.task, .metric, true⟩]
  else if sendFailed then [⟨r.gen, r.task, .result, false⟩] else []

def engStep (s : EngineSt) : Ev → EngineSt
  | .startGen tasks sf =>
    { curGen := s.curGen + 1, active := tasks, sendFailed := sf,
      running := [], delivered := s.delivered }
  | .fire t =>
    if t ∈ s.active ∧ (⟨s.curGen, t⟩ : RunId) ∉ s.running then
      { s with running := ⟨s.curGen, t⟩ :: s.running }
    else s
  | .complete r ok =>
    if r ∈ s.running then
      { s with running := s.running.erase r,
               delivered := s.delivered ++ outsFor r ok s.sendFailed }
    else s

def engRun (s : EngineSt) (evs : List Ev) : EngineSt :=
  evs.foldl engStep s

def engInit : EngineSt :=
  { curGen := 0, active := [], sendFailed := false, running := [], delivered := [] }

/-! ## Task validation and activation

Modelled from the spec: a task is scheduled only if its schedule
parses and its module exists; otherwise exactly one `ScheduleError`
with the exact message template from the tests is produced and the
task is excluded from the generation, leaving its siblings alone. -/

structure CompTask where
  id : Nat
  name : String
  mod_name : String
  schedule : String
  enabled : Bool
  task_params : List (String × String)
  deriving DecidableEq, Repr

def validateTask (modules : List String) (t : CompTask) :
    Except String (List IntervalSpec) :=
  match parseSchedule t.schedule with
  | none =>
    .error ("Could not schedule task " ++ t.name ++ ": " ++ durationParseError t.schedule)
  | some spec =>
    if t.mod_name ∈ modules then .ok spec
    else .error ("Could not schedule task " ++ t.name ++ ": Module "
                  ++ t.mod_name ++ " does not exist")

structure ActivationRes where
  errors : List (String × String)
  scheduled : List (Nat × List IntervalSpec)
  deriving DecidableEq, Repr

def activate (modules : List String) (tasks : List CompTask) : ActivationRes :=
  { errors := tasks.filterMap (fun t =>
      match validateTask modules t with
      | .error m => some (t.name, m)
      | .ok _ => none),
    scheduled := tasks.filterMap (fun t =>
      match validateTask modules t with
      | .error _ => none
      | .ok sp => some (t.id, sp)) }

/-- The module registry the test fixture loads. -/
def testModules : List String :=
  ["docker-bench-security", "kube-bench", "test-module", "fail-module"]

/-! ## Execution dispatch: results, events, metrics, failure details

Modelled from the spec, with the exact message shapes the tests match
against. -/

structure RunResultM where
  task_name : String
  success : Bool
  ext_result : List (String × String)
  failure_details : String
  deriving DecidableEq, Repr

structure RunEventM where
  task_name : String
  container_id : String
  output : String
  output_fields : List (String × String)
  deriving DecidableEq, Repr

def sepSpace : List String → String
  | [] => ""
  | [x] => x
  | x :: xs => x ++ " " ++ sepSpace xs

/-- The command context embedded in every run-time failure message:
resolved path, argument vector, environment and working directory. -/
def cmdContext (path : String) (args env : List String) (dir : String) : String :=
  "\x7bPath=" ++ path ++ " Args=[" ++ sepSpace args ++ "] Env=["
    ++ sepSpace env ++ "] Dir=" ++ dir ++ "\x7d"

/-- Failure details when the module binary could not be launched. -/
def launchFailureDetails (mod path : String) (args env : List String)
    (dir cause : String) : String :=
  "Could not start module " ++ mod ++ " via " ++ cmdContext path args env dir
    ++ " (" ++ cause ++ ")"

/-- Failure details when the module ran but exited non-zero. -/
def exitFailureDetails (mod path : String) (args env : List String)
    (dir : String) (code : Nat) (stdout stderr : String) : String :=
  "module " ++ mod ++ " via " ++ cmdContext path args env dir
    ++ " exited with error (exit status " ++ Nat.repr code ++ ") Stdout: \""
    ++ stdout ++ "\" Stderr: \"" ++ stderr ++ "\""

def renderParams : List (String × String) → String
  | [] => ""
  | (k, v) :: ps => " " ++ k ++ "=" ++ v ++ renderParams ps

/-- Modelled from the spec: the event describing a successful run, a
fixed textual summary embedding the task name and its parameters and
a field map echoing the same. -/
def runEventOf (t : CompTask) (container : String) : RunEventM :=
  { task_name := t.name, container_id := container,
    output := "run (task=" ++ t.name ++ renderParams t.task_params ++ ")",
    output_fields := ("task", t.name) :: t.task_params }

/-- The statsd line of the per-run counter: named deterministically
from the task name, valued with the module-reported count. -/
def metricLine (t : CompTask) (value : String) : String :=
  "compliance." ++ t.name ++ ":tests_pass:" ++ value ++ "|g"

inductive RunOutcome where
  | success (ext : List (String × String)) (passCount : String)
  | exitFail (code : Nat) (stdout stderr : String)
  | launchFail (cause : String)
  deriving DecidableEq, Repr

/-- Modelled from the spec: the dispatcher classifies the module
runner's outcome.  Success delivers one result (with the module's
extended payload, which always carries the task id and name), one
event and one metric; both run-time failures deliver exactly one
failing result and never a `ScheduleError`. -/
def dispatchRun (t : CompTask) (path : String) (args env : List String)
    (dir container : String) :
    RunOutcome → List RunResultM × List RunEventM × List String
  | .success ext pc =>
    ([{ task_name := t.name, success := true,
        ext_result := ("id", Nat.repr t.id) :: ("taskName", t.name) :: ext,
        failure_details := "" }],
     [runEventOf t container], [metricLine t pc])
  | .exitFail code out err =>
    ([{ task_name := t.name, success := false, ext_result := [],
        failure_details := exitFailureDetails t.mod_name path args env dir code out err }],
     [], [])
  | .launchFail cause =>
    ([{ task_name := t.name, success := false, ext_result := [],
        failure_details := launchFailureDetails t.mod_name path args env dir cause }],
     [], [])

/-- Substring containment, used to state that failure details and
event texts embed their required components. -/
def containsStr (hay needle : String) : Prop :=
  ∃ l r, hay = l ++ needle ++ r

/-! ## Supporting lemmas -/

theorem mem_insertByKey {α : Type} (key : α → Nat) (x z : α) :
    ∀ l : List α, z ∈ insertByKey key x l ↔ z = x ∨ z ∈ l
  | [] => by simp [insertByKey]
  | y :: ys => by
    by_cases hxy : key x ≤ key y
    · simp [insertByKey, if_pos hxy]
    · simp [insertByKey, if_neg hxy, mem_insertByKey key x z ys]
      tauto

theorem pairwise_insertByKey {α : Type} (key : α → Nat) (x : α) :
    ∀ l : List α, l.Pairwise (fun a b => key a ≤ key b) →
      (insertByKey key x l).Pairwise (fun a b => key a ≤ key b)
  | [], _ => by simp [insertByKey]
  | y :: ys, h => by
    rw [List.pairwise_cons] at h
    by_cases hxy : key x ≤ key y
    · rw [insertByKey, if_pos hxy, List.pairwise_cons]
      refine ⟨?_, List.pairwise_cons.mpr h⟩
      intro z hz
      rcases List.mem_cons.mp hz with rfl | hz2
      · exact hxy
      · exact le_trans hxy (h.1 z hz2)
    · rw [insertByKey, if_neg hxy, List.pairwise_cons]
      refine ⟨?_, pairwise_insertByKey key x ys h.2⟩
      intro z hz
      rcases (mem_insertByKey key x z ys).mp hz with rfl | hz2
      · exact le_of_not_le hxy
      · exact h.1 z hz2

theorem pairwise_sortByKey {α : Type} (key : α → Nat) :
    ∀ l : List α, (sortByKey key l).Pairwise (fun a b => key a ≤ key b)
  | [] => by simp [sortByKey]
  | x :: xs => pairwise_insertByKey key x _ (pairwise_sortByKey key xs)

theorem chain'_iterChain (f : DT → DT) :
    ∀ (a : DT) (n : Nat), List.Chain' (fun x y => y = f x) (iterChain f a n)
  | _, 0 => by simp [iterChain]
  | _, 1 => by simp [iterChain]
  | a, n + 2 => by
    show List.Chain' _ (a :: f a :: iterChain f (f (f a)) n)
    exact List.chain'_cons.mpr ⟨rfl, chain'_iterChain f (f a) (n + 1)⟩

theorem chain'_dropWhile {α : Type} {R : α → α → Prop} (p : α → Bool) :
    ∀ l : List α, List.Chain' R l → List.Chain' R (l.dropWhile p)
  | [], h => h
  | x :: xs, h => by
    by_cases hx : p x
    · rw [List.dropWhile_cons, if_pos hx]
      exact chain'_dropWhile p xs h.tail
    · rwa [List.dropWhile_cons, if_neg hx]

/-- Every interval stream is, link by link, a period advance. -/
theorem chain'_intervalRuns (i : IntervalSpec) (start : DT) (fuel : Nat) :
    List.Chain' (fun a b => b = addPeriod i.period a) (intervalRuns i start fuel) :=
  chain'_dropWhile _ _ (chain'_iterChain _ _ _)

theorem dedupAdjAux_sublist (prev : DT) :
    ∀ l : List DT, List.Sublist (dedupAdjAux prev l) l
  | [] => by simp [dedupAdjAux]
  | y :: ys => by
    by_cases h : toTs prev = toTs y
    · rw [dedupAdjAux, if_pos h]
      exact (dedupAdjAux_sublist prev ys).cons y
    · rw [dedupAdjAux, if_neg h]
      exact (dedupAdjAux_sublist y ys).cons₂ y

theorem dedupAdj_sublist : ∀ l : List DT, List.Sublist (dedupAdj l) l
  | [] => List.Sublist.refl _
  | x :: xs => (dedupAdjAux_sublist x xs).cons₂ x

/-- The projection is chronologically non-decreasing, for any
schedule, reference instant and count. -/
theorem project_sorted (spec : List IntervalSpec) (start : DT) (count : Nat) :
    (project spec start count).Pairwise (fun a b => toTs a ≤ toTs b) := by
  have hs := pairwise_sortByKey toTs
    (((spec.map (fun i => intervalRuns i start (count + projFuelPad))).foldr (· ++ ·) []))
  have hd := List.Pairwise.sublist (dedupAdj_sublist _) hs
  have ht := List.Pairwise.sublist (List.take_sublist count _) hd
  simpa [project] using ht

theorem outsFor_gen_task (r : RunId) (ok sf : Bool) :
    ∀ o ∈ outsFor r ok sf, o.gen = r.gen ∧ o.task = r.task := by
  intro o ho
  cases ok
  · cases sf
    · simp [outsFor] at ho
    · simp [outsFor] at ho
      subst ho
      exact ⟨rfl, rfl⟩
  · simp [outsFor] at ho
    rcases ho with rfl | rfl | rfl <;> exact ⟨rfl, rfl⟩

/-- One non-`startGen` step keeps the generation and task set, only
adds current-generation runs for active tasks, only delivers outputs
of runs that were in flight, and never drops a delivered output. -/
theorem engStep_frame (s : EngineSt) (e : Ev) (hne : isStartGen e = false) :
    (engStep s e).curGen = s.curGen ∧ (engStep s e).active = s.active ∧
    (∀ r ∈ (engStep s e).running,
        r ∈ s.running ∨ (r.gen = s.curGen ∧ r.task ∈ s.active)) ∧
    (∀ o ∈ (engStep s e).delivered,
        o ∈ s.delivered ∨ ∃ r ∈ s.running, o.gen = r.gen ∧ o.task = r.task) ∧
    (∀ o ∈ s.delivered, o ∈ (engStep s e).delivered) := by
  cases e with
  | startGen tasks sf => simp [isStartGen] at hne
  | fire t =>
    by_cases h : t ∈ s.active ∧ (⟨s.curGen, t⟩ : RunId) ∉ s.running
    · rw [engStep, if_pos h]
      refine ⟨rfl, rfl, ?_, fun o ho => Or.inl ho, fun o ho => ho⟩
      intro r hr
      rcases List.mem_cons.mp hr with rfl | hr2
      · exact Or.inr ⟨rfl, h.1⟩
      · exact Or.inl hr2
    · rw [engStep, if_neg h]
      exact ⟨rfl, rfl, fun r hr => Or.inl hr, fun o ho => Or.inl ho, fun o ho => ho⟩
  | complete r0 ok =>
    by_cases h : r0 ∈ s.running
    · rw [engStep, if_pos h]
      refine ⟨rfl, rfl, ?_, ?_, ?_⟩
      · intro r hr
        exact Or.inl (List.mem_of_mem_erase hr)
      · intro o ho
        rcases List.mem_append.mp ho with h1 | h2
        · exact Or.inl h1
        · exact Or.inr ⟨r0, h, outsFor_gen_task r0 ok s.sendFailed o h2⟩
      · intro o ho
        exact List.mem_append.mpr (Or.inl ho)
    · rw [engStep, if_neg h]
      exact ⟨rfl, rfl, fun r hr => Or.inl hr, fun o ho => Or.inl ho, fun o ho => ho⟩

/-- Frame property over any run of non-`startGen` events: the
generation and task set persist, all in-flight runs stay tagged with
the live generation and an active task, no output is ever delivered
for anything else, and delivered outputs are never retracted. -/
theorem engine_frame (g : Nat) (acts : List Nat) :
    ∀ (evs : List Ev) (s : EngineSt),
      (∀ e ∈ evs, isStartGen e = false) →
      s.curGen = g → s.active = acts →
      (∀ r ∈ s.running, r.gen = g ∧ r.task ∈ acts) →
      (engRun s evs).curGen = g ∧ (engRun s evs).active = acts ∧
      (∀ r ∈ (engRun s evs).running, r.gen = g ∧ r.task ∈ acts) ∧
      (∀ o ∈ (engRun s evs).delivered,
          o ∈ s.delivered ∨ (o.gen = g ∧ o.task ∈ acts)) ∧
      (∀ o ∈ s.delivered, o ∈ (engRun s evs).delivered)
  | [], s, _, hg, ha, hr =>
    ⟨hg, ha, hr, fun _ ho => Or.inl ho, fun _ ho => ho⟩
  | e :: evs, s, hne, hg, ha, hr => by
    have hne1 : isStartGen e = false := hne e (List.mem_cons_self e evs)
    have hf := engStep_frame s e hne1
    have hr2 : ∀ r ∈ (engStep s e).running, r.gen = g ∧ r.task ∈ acts := by
      intro r hrm
      rcases hf.2.2.1 r hrm with h1 | h2
      · exact hr r h1
      · exact ⟨hg ▸ h2.1, ha ▸ h2.2⟩
    have ih := engine_frame g acts evs (engStep s e)
      (fun e2 h2 => hne e2 (List.mem_cons_of_mem e h2))
      (hf.1.trans hg) (hf.2.1.trans ha) hr2
    refine ⟨ih.1, ih.2.1, ih.2.2.1, ?_, ?_⟩
    · intro o ho
      rcases ih.2.2.2.1 o ho with h1 | h2
      · rcases hf.2.2.2.1 o h1 with h3 | ⟨r, hrm, hgen, htask⟩
        · exact Or.inl h3
        · have := hr r hrm
          exact Or.inr ⟨hgen.trans this.1, htask ▸ this.2⟩
      · exact Or.inr h2
    · intro o ho
      exact ih.2.2.2.2 o (hf.2.2.2.2 o ho)

/-- Fires create a run only if none is in flight, so the in-flight
list never holds two runs of the same `(generation, task)` pair. -/
theorem engStep_running_nodup (s : EngineSt) (e : Ev)
    (h : s.running.Nodup) : (engStep s e).running.Nodup := by
  cases e with
  | startGen tasks sf => simp [engStep]
  | fire t =>
    by_cases hc : t ∈ s.active ∧ (⟨s.curGen, t⟩ : RunId) ∉ s.running
    · rw [engStep, if_pos hc]
      exact List.nodup_cons.mpr ⟨hc.2, h⟩
    · rwa [engStep, if_neg hc]
  | complete r0 ok =>
    by_cases hc : r0 ∈ s.running
    · rw [engStep, if_pos hc]
      exact h.erase r0
    · rwa [engStep, if_neg hc]

theorem engRun_running_nodup :
    ∀ (evs : List Ev) (s : EngineSt), s.running.Nodup →
      (engRun s evs).running.Nodup
  | [], _, h => h
  | e :: evs, s, h =>
    engRun_running_nodup evs (engStep s e) (engStep_running_nodup s e h)

theorem daysInMonth_ge_28 (y m : Nat) : 28 ≤ daysInMonth y m := by
  rw [daysInMonth]
  split
  · split <;> omega
  · split <;> omega

end Compliance

deriving instance DecidableEq for Except

namespace Compliance

set_option maxRecDepth 40000

set_option maxHeartbeats 1000000

/-! ## The claims -/

/-- C3: `project` applied to schedule `06:00:00Z/PT12H` from reference
instant 2018-11-14T00:00:00Z for 5 runs returns exactly the sequence
2018-11-14T06:00:00Z, 2018-11-14T18:00:00Z, 2018-11-15T06:00:00Z,
2018-11-15T18:00:00Z, 2018-11-16T06:00:00Z. -/
theorem future_runs_twice_daily_projection :
    get_future_runs "06:00:00Z/PT12H" "2018-11-14T00:00:00Z" 5 =
      .ok ["2018-11-14T06:00:00Z", "2018-11-14T18:00:00Z", "2018-11-15T06:00:00Z",
           "2018-11-15T18:00:00Z", "2018-11-16T06:00:00Z"] := by
  decide

/-- C4: `project` applied to the two-interval schedule
`[2018-11-01T06:00:00Z/P1M, 2018-11-14T06:00:00Z/P1M]` from reference
2018-11-14T00:00:00Z for 5 runs returns the two monthly sequences
merged in time order, and each `P1M` step advances to the same
day-of-month of the following month regardless of month length. -/
theorem future_runs_twice_monthly_projection :
    (get_future_runs "[2018-11-01T06:00:00Z/P1M, 2018-11-14T06:00:00Z/P1M]"
        "2018-11-14T00:00:00Z" 5 =
      .ok ["2018-11-14T06:00:00Z", "2018-12-01T06:00:00Z", "2018-12-14T06:00:00Z",
           "2019-01-01T06:00:00Z", "2019-01-14T06:00:00Z"]) ∧
    (∀ t : DT, t.day ≤ 28 →
      (addMonth t).day = t.day ∧
      (addMonth t).month = (if t.month = 12 then 1 else t.month + 1) ∧
      (addMonth t).year = (if t.month = 12 then t.year + 1 else t.year)) := by
  refine ⟨by decide, ?_⟩
  intro t h
  refine ⟨?_, rfl, rfl⟩
  have h28 := daysInMonth_ge_28 (if t.month = 12 then t.year + 1 else t.year)
    (if t.month = 12 then 1 else t.month + 1)
  simp only [addMonth]
  omega

/-- C4 witness: the month-advance clause at a concrete instant. -/
theorem future_runs_twice_monthly_projection_witness :
    (⟨2018, 11, 14, 6, 0, 0⟩ : DT).day ≤ 28 ∧
      (addMonth ⟨2018, 11, 14, 6, 0, 0⟩).day = 14 :=
  ⟨by decide, (future_runs_twice_monthly_projection.2 ⟨2018, 11, 14, 6, 0, 0⟩ (by decide)).1⟩

/-- C5: for every valid schedule string, reference instant and count,
`project` returns a chronologically non-decreasing sequence, and every
interval stream (in particular those with calendar-unit periods)
advances link by link by its calendar period. -/
theorem project_monotone_calendar :
    (∀ (s : String) (spec : List IntervalSpec) (start : DT) (n : Nat),
        parseSchedule s = some spec →
        (project spec start n).Pairwise (fun a b => toTs a ≤ toTs b)) ∧
    (∀ (i : IntervalSpec) (start : DT) (fuel : Nat), i.period.isCalendar = true →
        List.Chain' (fun a b => b = addPeriod i.period a) (intervalRuns i start fuel)) :=
  ⟨fun _ spec start n _ => project_sorted spec start n,
   fun i start fuel _ => chain'_intervalRuns i start fuel⟩

/-- C5 witness: both clauses at concrete schedules (an hourly one and
a monthly calendar one). -/
theorem project_monotone_calendar_witness :
    (project [⟨.unanchored, none, .secs 3600⟩] simStart 5).Pairwise
        (fun a b => toTs a ≤ toTs b) ∧
    List.Chain' (fun a b => b = addPeriod (Period.months 1) a)
      (intervalRuns ⟨.absolute ⟨2018, 11, 14, 6, 0, 0⟩, none, .months 1⟩ simStart 5) :=
  ⟨project_monotone_calendar.1 "PT1H" [⟨.unanchored, none, .secs 3600⟩] simStart 5 (by decide),
   project_monotone_calendar.2 ⟨.absolute ⟨2018, 11, 14, 6, 0, 0⟩, none, .months 1⟩ simStart 5
     (by decide)⟩

/-- C6: every newly activated task fires once immediately in addition
to its interval projections, and an `R N` prefix bounds an interval:
schedule `[R1/PT1S, PT1H]` yields exactly 2 results within the 10 s
test window (run-now plus the first interval fire) and
`[R1/PT1S, R1/PT2S]` yields exactly 3 (run-now plus each interval
firing once). -/
theorem run_now_and_bounded_intervals :
    (∀ (spec : List IntervalSpec) (start : DT),
        activationFires spec start = 0 :: liveFireTimes spec start) ∧
    (activationOutputs "[R1/PT1S, PT1H]" 0).countP
        (fun p => p.1 ≤ 10 && p.2 == .result) = 2 ∧
    (activationOutputs "[R1/PT1S, R1/PT2S]" 0).countP
        (fun p => p.1 ≤ 10 && p.2 == .result) = 3 :=
  ⟨fun _ _ => rfl, by decide, by decide⟩

/-- C2: at most one execution is ever in flight per
`(generation, task id)` pair; a fire arriving while that task is
running is dropped silently; and a task scheduled `R2/PT1S` whose
module sleeps 5 s delivers exactly one result and one event (the
scheduled fires at 1 s and 2 s are dropped, not queued). -/
theorem single_flight_per_task :
    (∀ evs : List Ev, (engRun engInit evs).running.Nodup) ∧
    (∀ (s : EngineSt) (t : Nat), (⟨s.curGen, t⟩ : RunId) ∈ s.running →
        engStep s (.fire t) = s) ∧
    (activationOutputs "R2/PT1S" 5).countP (fun p => p.2 == .result) = 1 ∧
    (activationOutputs "R2/PT1S" 5).countP (fun p => p.2 == .event) = 1 := by
  refine ⟨fun evs => engRun_running_nodup evs engInit (by simp [engInit]), ?_, by decide, by decide⟩
  intro s t h
  rw [engStep, if_neg]
  rintro ⟨-, hn⟩
  exact hn h

/-- C2 witness: the drop-silently clause at a concrete state. -/
theorem single_flight_per_task_witness :
    (⟨0, 7⟩ : RunId) ∈ [(⟨0, 7⟩ : RunId)] ∧
    engStep ⟨0, [7], false, [⟨0, 7⟩], []⟩ (.fire 7) = ⟨0, [7], false, [⟨0, 7⟩], []⟩ :=
  ⟨by decide, single_flight_per_task.2.1 ⟨0, [7], false, [⟨0, 7⟩], []⟩ 7 (by decide)⟩

/-- The superseding scenario of the `start_cancels` test: activate a
set holding only task `A`, fire `A` (its run is then in flight),
supersede with a set holding only task `B`, fire and complete `B`,
then wait through arbitrary further fire/completion activity. -/
def supersedeTrace (A B : Nat) (sfA sfB : Bool) (rest : List Ev) : List Ev :=
  [.startGen [A] sfA, .fire A, .startGen [B] sfB, .fire B, .complete ⟨2, B⟩ true] ++ rest

theorem supersedeTrace_prefix_state (A B : Nat) (sfA sfB : Bool) :
    engRun engInit
        [.startGen [A] sfA, .fire A, .startGen [B] sfB, .fire B, .complete ⟨2, B⟩ true] =
      { curGen := 2, active := [B], sendFailed := sfB, running := [],
        delivered := [⟨2, B, .result, true⟩, ⟨2, B, .event, true⟩, ⟨2, B, .metric, true⟩] } := by
  simp [engRun, engInit, engStep, outsFor]

/-- C1: once the generation containing in-flight task `A` is
superseded by a set containing a different task `B`, the result, event
and metric of `B` are delivered while nothing for `A` is ever
delivered, however long the subsequent activity runs. -/
theorem start_cancels_superseded_generation (A B : Nat) (hAB : A ≠ B)
    (sfA sfB : Bool) (rest : List Ev)
    (hrest : ∀ e ∈ rest, isStartGen e = false) :
    ((⟨2, B, .result, true⟩ : Output) ∈
        (engRun engInit (supersedeTrace A B sfA sfB rest)).delivered ∧
     (⟨2, B, .event, true⟩ : Output) ∈
        (engRun engInit (supersedeTrace A B sfA sfB rest)).delivered ∧
     (⟨2, B, .metric, true⟩ : Output) ∈
        (engRun engInit (supersedeTrace A B sfA sfB rest)).delivered) ∧
    (∀ o ∈ (engRun engInit (supersedeTrace A B sfA sfB rest)).delivered, o.task ≠ A) := by
  have hsplit : engRun engInit (supersedeTrace A B sfA sfB rest) =
      engRun ⟨2, [B], sfB, [],
        [⟨2, B, .result, true⟩, ⟨2, B, .event, true⟩, ⟨2, B, .metric, true⟩]⟩ rest := by
    rw [supersedeTrace, engRun, List.foldl_append]
    rw [show ∀ l, List.foldl engStep engInit l = engRun engInit l from fun _ => rfl]
    rw [supersedeTrace_prefix_state]
    rfl
  rw [hsplit]
  have hf := engine_frame 2 [B] rest
    ⟨2, [B], sfB, [],
      [⟨2, B, .result, true⟩, ⟨2, B, .event, true⟩, ⟨2, B, .metric, true⟩]⟩ hrest rfl rfl
    (by intro r hr; exact absurd hr (List.not_mem_nil r))
  refine ⟨⟨?_, ?_, ?_⟩, ?_⟩
  · exact hf.2.2.2.2 _ (by simp)
  · exact hf.2.2.2.2 _ (by simp)
  · exact hf.2.2.2.2 _ (by simp)
  · intro o ho
    rcases hf.2.2.2.1 o ho with h1 | h2
    · simp at h1
      rcases h1 with rfl | rfl | rfl <;> exact Ne.symm hAB
    · have hB : o.task = B := by simpa using h2.2
      rw [hB]
      exact Ne.symm hAB

/-- C1 witness: concrete tasks 1 and 2, with task 1's stale completion
and a stale fire of task 1 arriving after the supersede. -/
theorem start_cancels_superseded_generation_witness :
    (1 : Nat) ≠ 2 ∧
    (∀ e ∈ ([.complete ⟨1, 1⟩ true, .fire 1] : List Ev), isStartGen e = false) ∧
    (∀ o ∈ (engRun engInit
        (supersedeTrace 1 2 false false [.complete ⟨1, 1⟩ true, .fire 1])).delivered,
      o.task ≠ 1) :=
  ⟨by decide, by decide,
   (start_cancels_superseded_generation 1 2 (by decide) false false
      [.complete ⟨1, 1⟩ true, .fire 1] (by decide)).2⟩

/-! Concrete invalid task definitions, verbatim from the test file. -/

def task_bad_schedule : CompTask :=
  ⟨1, "bad-schedule-task", "test-module", "not-a-real-schedule", true,
   [("iter", "1"), ("sleepTime", "5"), ("rc", "0")]⟩

def task_bad_schedule_2 : CompTask :=
  ⟨1, "bad-schedule-task-2", "test-module", "PT1K1M", true,
   [("iter", "1"), ("sleepTime", "5"), ("rc", "0")]⟩

def task_bad_leading_junk : CompTask :=
  ⟨1, "bad-schedule-task-leading-junk", "test-module", "junkPT1H", true,
   [("iter", "1"), ("sleepTime", "5"), ("rc", "0")]⟩

def task_bad_trailing_junk : CompTask :=
  ⟨1, "bad-schedule-task-trailing-junk", "test-module", "PT-1H", true,
   [("iter", "1"), ("sleepTime", "5"), ("rc", "0")]⟩

def task_bad_module : CompTask :=
  ⟨1, "bad-module-task", "not-a-real-module", "PT1H", true,
   [("iter", "1"), ("sleepTime", "0"), ("rc", "0")]⟩

/-- C7: a task failing validation yields exactly one ScheduleError
with the exact message template (unparseable schedule or unknown
module), is excluded from the generation, and no RunResult is ever
produced for it; the four unparseable schedules of the tests are all
rejected with the exact expected strings. -/
theorem schedule_validation_errors :
    (∀ (mods : List String) (t : CompTask), parseSchedule t.schedule = none →
        validateTask mods t = .error ("Could not schedule task " ++ t.name ++ ": "
          ++ durationParseError t.schedule)) ∧
    (∀ (mods : List String) (t : CompTask) (sp : List IntervalSpec),
        parseSchedule t.schedule = some sp → t.mod_name ∉ mods →
        validateTask mods t = .error ("Could not schedule task " ++ t.name
          ++ ": Module " ++ t.mod_name ++ " does not exist")) ∧
    (validateTask testModules task_bad_schedule = .error
        "Could not schedule task bad-schedule-task: Could not parse duration from schedule not-a-real-schedule: did not match expected pattern" ∧
     validateTask testModules task_bad_schedule_2 = .error
        "Could not schedule task bad-schedule-task-2: Could not parse duration from schedule PT1K1M: did not match expected pattern" ∧
     validateTask testModules task_bad_leading_junk = .error
        "Could not schedule task bad-schedule-task-leading-junk: Could not parse duration from schedule junkPT1H: did not match expected pattern" ∧
     validateTask testModules task_bad_trailing_junk = .error
        "Could not schedule task bad-schedule-task-trailing-junk: Could not parse duration from schedule PT-1H: did not match expected pattern" ∧
     validateTask testModules task_bad_module = .error
        "Could not schedule task bad-module-task: Module not-a-real-module does not exist") ∧
    (∀ (mods : List String) (t : CompTask) (msg : String),
        validateTask mods t = .error msg →
        activate mods [t] = ⟨[(t.name, msg)], []⟩) ∧
    (∀ (acts : List Nat) (bad : Nat) (sf : Bool) (evs : List Ev),
        bad ∉ acts → (∀ e ∈ evs, isStartGen e = false) →
        ∀ o ∈ (engRun (engStep engInit (.startGen acts sf)) evs).delivered,
          o.task ≠ bad) := by
  refine ⟨?_, ?_, ⟨by decide, by decide, by decide, by decide, by decide⟩, ?_, ?_⟩
  · intro mods t h
    simp [validateTask, h]
  · intro mods t sp h hmod
    simp [validateTask, h, hmod]
  · intro mods t msg h
    simp [activate, h]
  · intro acts bad sf evs hbad hne o ho hot
    have hf := engine_frame 1 acts evs (engStep engInit (.startGen acts sf)) hne rfl rfl
      (by intro r hr; simp [engStep, engInit] at hr)
    rcases hf.2.2.2.1 o ho with h1 | h2
    · simp [engStep, engInit] at h1
    · exact hbad (hot ▸ h2.2)

/-- C7 witness: the unparseable-schedule task of the `bad_schedule`
test produces its single exact error and an empty generation. -/
theorem schedule_validation_errors_witness :
    validateTask testModules task_bad_schedule = .error
      "Could not schedule task bad-schedule-task: Could not parse duration from schedule not-a-real-schedule: did not match expected pattern" ∧
    activate testModules [task_bad_schedule] =
      ⟨[("bad-schedule-task",
         "Could not schedule task bad-schedule-task: Could not parse duration from schedule not-a-real-schedule: did not match expected pattern")], []⟩ :=
  ⟨by decide,
   schedule_validation_errors.2.2.2.1 testModules task_bad_schedule _ (by decide)⟩

theorem containsStr_extendR (s t n : String) (h : containsStr s n) :
    containsStr (s ++ t) n := by
  obtain ⟨l, r, he⟩ := h
  exact ⟨l, r ++ t, by rw [he]; simp [String.append_assoc]⟩

theorem containsStr_extendL (s t n : String) (h : containsStr t n) :
    containsStr (s ++ t) n := by
  obtain ⟨l, r, he⟩ := h
  exact ⟨s ++ l, r, by rw [he]; simp [String.append_assoc]⟩

theorem containsStr_append_self (s n : String) : containsStr (s ++ n) n :=
  ⟨s, "", by simp⟩

/-- C8: run-time failures (launch failure or non-zero exit) produce a
single failing RunResult, not a ScheduleError; the failure_details
string deterministically embeds the module name, resolved path,
argument vector, environment, working directory and, on non-zero exit,
the exit status and captured stdout/stderr; and a failed completion
never aborts the task's future scheduled recurrences. -/
theorem runtime_failure_result :
    (∀ (t : CompTask) (path : String) (args env : List String)
        (dir container : String) (code : Nat) (out err : String),
      (dispatchRun t path args env dir container (.exitFail code out err)).1 =
        [⟨t.name, false, [], exitFailureDetails t.mod_name path args env dir code out err⟩]) ∧
    (∀ (t : CompTask) (path : String) (args env : List String)
        (dir container cause : String),
      (dispatchRun t path args env dir container (.launchFail cause)).1 =
        [⟨t.name, false, [], launchFailureDetails t.mod_name path args env dir cause⟩]) ∧
    (∀ (mod path : String) (args env : List String) (dir : String)
        (code : Nat) (out err : String),
      containsStr (exitFailureDetails mod path args env dir code out err) mod ∧
      containsStr (exitFailureDetails mod path args env dir code out err) path ∧
      containsStr (exitFailureDetails mod path args env dir code out err) (sepSpace args) ∧
      containsStr (exitFailureDetails mod path args env dir code out err) (sepSpace env) ∧
      containsStr (exitFailureDetails mod path args env dir code out err) dir ∧
      containsStr (exitFailureDetails mod path args env dir code out err) (Nat.repr code) ∧
      containsStr (exitFailureDetails mod path args env dir code out err) out ∧
      containsStr (exitFailureDetails mod path args env dir code out err) err) ∧
    (∀ (mod path : String) (args env : List String) (dir cause : String),
      containsStr (launchFailureDetails mod path args env dir cause) mod ∧
      containsStr (launchFailureDetails mod path args env dir cause) path ∧
      containsStr (launchFailureDetails mod path args env dir cause) (sepSpace args) ∧
      containsStr (launchFailureDetails mod path args env dir cause) (sepSpace env) ∧
      containsStr (launchFailureDetails mod path args env dir cause) dir ∧
      containsStr (launchFailureDetails mod path args env dir cause) cause) ∧
    (∀ (s : EngineSt) (r : RunId) (ok : Bool),
        (engStep s (.complete r ok)).active = s.active ∧
        (engStep s (.complete r ok)).curGen = s.curGen) ∧
    (∀ (s : EngineSt) (t : Nat), t ∈ s.active → (⟨s.curGen, t⟩ : RunId) ∉ s.running →
        (engStep s (.fire t)).running = ⟨s.curGen, t⟩ :: s.running) := by
  refine ⟨fun _ _ _ _ _ _ _ _ _ => rfl, fun _ _ _ _ _ _ _ => rfl, ?_, ?_, ?_, ?_⟩
  · intro mod path args env dir code out err
    have hpath : containsStr (cmdContext path args env dir) path := by
      unfold cmdContext
      iterate 7 apply containsStr_extendR
      exact containsStr_append_self _ _
    have hargs : containsStr (cmdContext path args env dir) (sepSpace args) := by
      unfold cmdContext
      iterate 5 apply containsStr_extendR
      exact containsStr_append_self _ _
    have henv : containsStr (cmdContext path args env dir) (sepSpace env) := by
      unfold cmdContext
      iterate 3 apply containsStr_extendR
      exact containsStr_append_self _ _
    have hdir : containsStr (cmdContext path args env dir) dir := by
      unfold cmdContext
      apply containsStr_extendR
      exact containsStr_append_self _ _
    have lift : ∀ n, containsStr (cmdContext path args env dir) n →
        containsStr (exitFailureDetails mod path args env dir code out err) n := by
      intro n h
      unfold exitFailureDetails
      iterate 7 apply containsStr_extendR
      exact containsStr_extendL _ _ _ h
    refine ⟨?_, lift path hpath, lift (sepSpace args) hargs, lift (sepSpace env) henv,
      lift dir hdir, ?_, ?_, ?_⟩
    · unfold exitFailureDetails
      iterate 9 apply containsStr_extendR
      exact containsStr_append_self _ _
    · unfold exitFailureDetails
      iterate 5 apply containsStr_extendR
      exact containsStr_append_self _ _
    · unfold exitFailureDetails
      iterate 3 apply containsStr_extendR
      exact containsStr_append_self _ _
    · unfold exitFailureDetails
      apply containsStr_extendR
      exact containsStr_append_self _ _
  · intro mod path args env dir cause
    have hpath : containsStr (cmdContext path args env dir) path := by
      unfold cmdContext
      iterate 7 apply containsStr_extendR
      exact containsStr_append_self _ _
    have hargs : containsStr (cmdContext path args env dir) (sepSpace args) := by
      unfold cmdContext
      iterate 5 apply containsStr_extendR
      exact containsStr_append_self _ _
    have henv : containsStr (cmdContext path args env dir) (sepSpace env) := by
      unfold cmdContext
      iterate 3 apply containsStr_extendR
      exact containsStr_append_self _ _
    have hdir : containsStr (cmdContext path args env dir) dir := by
      unfold cmdContext
      apply containsStr_extendR
      exact containsStr_append_self _ _
    have lift : ∀ n, containsStr (cmdContext path args env dir) n →
        containsStr (launchFailureDetails mod path args env dir cause) n := by
      intro n h
      unfold launchFailureDetails
      iterate 3 apply containsStr_extendR
      exact containsStr_extendL _ _ _ h
    refine ⟨?_, lift path hpath, lift (sepSpace args) hargs, lift (sepSpace env) henv,
      lift dir hdir, ?_⟩
    · unfold launchFailureDetails
      iterate 5 apply containsStr_extendR
      exact containsStr_append_self _ _
    · unfold launchFailureDetails
      apply containsStr_extendR
      exact containsStr_append_self _ _
  · intro s r ok
    rw [engStep]
    split <;> exact ⟨rfl, rfl⟩
  · intro s t ha hn
    rw [engStep, if_pos ⟨ha, hn⟩]

/-- C8 witness: after a failed completion the task set is intact and a
fresh fire of the same task starts a new run. -/
theorem runtime_failure_result_witness :
    (7 : Nat) ∈ [7] ∧ (⟨0, 7⟩ : RunId) ∉ ([] : List RunId) ∧
    (engStep ⟨0, [7], true, [], []⟩ (.fire 7)).running = [⟨0, 7⟩] :=
  ⟨by decide, by decide,
   runtime_failure_result.2.2.2.2.2 ⟨0, [7], true, [], []⟩ 7 (by decide) (by decide)⟩

theorem renderParams_contains :
    ∀ (ps : List (String × String)) (p : String × String), p ∈ ps →
      containsStr (renderParams ps) (p.1 ++ "=" ++ p.2)
  | [], _, h => absurd h (List.not_mem_nil _)
  | (k, v) :: ps, p, h => by
    rcases List.mem_cons.mp h with rfl | h2
    · exact ⟨" ", renderParams ps, by simp [renderParams, String.append_assoc]⟩
    · exact containsStr_extendL (" " ++ k ++ "=" ++ v) (renderParams ps) _
        (renderParams_contains ps p h2)

/-- C9: a successful run produces exactly one successful RunResult
whose extended payload carries the task id and task name, exactly one
RunEvent whose text and field map embed the task name and parameters,
and exactly one telemetry counter named deterministically from the
task name (`compliance.<task_name>`) with the module-reported value. -/
theorem success_run_outputs (t : CompTask) (path : String) (args env : List String)
    (dir container : String) (ext : List (String × String)) (pc : String) :
    (dispatchRun t path args env dir container (.success ext pc)).1.length = 1 ∧
    (dispatchRun t path args env dir container (.success ext pc)).2.1.length = 1 ∧
    (dispatchRun t path args env dir container (.success ext pc)).2.2.length = 1 ∧
    (∀ r ∈ (dispatchRun t path args env dir container (.success ext pc)).1,
        r.success = true ∧ ("id", Nat.repr t.id) ∈ r.ext_result ∧
        ("taskName", t.name) ∈ r.ext_result) ∧
    (∀ e ∈ (dispatchRun t path args env dir container (.success ext pc)).2.1,
        e.task_name = t.name ∧ containsStr e.output t.name ∧
        (∀ p ∈ t.task_params, containsStr e.output (p.1 ++ "=" ++ p.2)) ∧
        ("task", t.name) ∈ e.output_fields ∧
        (∀ p ∈ t.task_params, p ∈ e.output_fields)) ∧
    (dispatchRun t path args env dir container (.success ext pc)).2.2 =
      [metricLine t pc] ∧
    containsStr (metricLine t pc) ("compliance." ++ t.name) := by
  refine ⟨rfl, rfl, rfl, ?_, ?_, rfl, ?_⟩
  · intro r hr
    rcases List.mem_cons.mp hr with rfl | h2
    · exact ⟨rfl, List.mem_cons_self _ _, List.mem_cons_of_mem _ (List.mem_cons_self _ _)⟩
    · exact absurd h2 (List.not_mem_nil r)
  · intro e he
    rcases List.mem_cons.mp he with rfl | h2
    · refine ⟨rfl, ⟨"run (task=", renderParams t.task_params ++ ")",
        by simp [runEventOf, String.append_assoc]⟩, ?_, List.mem_cons_self _ _, ?_⟩
      · intro p hp
        exact containsStr_extendR _ ")" _ (containsStr_extendL ("run (task=" ++ t.name) _ _
          (renderParams_contains t.task_params p hp))
      · intro p hp
        exact List.mem_cons_of_mem _ hp
    · exact absurd h2 (List.not_mem_nil e)
  · exact ⟨"", ":tests_pass:" ++ pc ++ "|g", by simp [metricLine, String.append_assoc]⟩

/-- C9 witness: the success outputs of a concrete task. -/
theorem success_run_outputs_witness :
    (⟨"my-task-1", true, [("id", "1"), ("taskName", "my-task-1")], ""⟩ : RunResultM) ∈
      (dispatchRun ⟨1, "my-task-1", "test-module", "PT1H", true, [("iter", "1")]⟩
        "p" [] [] "d" "tc" (.success [] "1")).1 ∧
    (⟨"my-task-1", true, [("id", "1"), ("taskName", "my-task-1")], ""⟩ : RunResultM).success
      = true :=
  ⟨by decide,
   ((success_run_outputs ⟨1, "my-task-1", "test-module", "PT1H", true, [("iter", "1")]⟩
      "p" [] [] "d" "tc" [] "1").2.2.2.1
     ⟨"my-task-1", true, [("id", "1"), ("taskName", "my-task-1")], ""⟩ (by decide)).1⟩

/-- C10: the Start request carries a send_failed_results option (the
test client sets it); a generation activated with it set delivers
every non-canceled failing run as a failing RunResult on the result
stream, and one activated with it clear does not — so delivery of
failed results is configurable per Start call, not unconditional. -/
theorem send_failed_results_option :
    (∀ (s : EngineSt) (tasks : List Nat) (sf : Bool),
        (engStep s (.startGen tasks sf)).sendFailed = sf) ∧
    (∀ (s : EngineSt) (r : RunId), r ∈ s.running → s.sendFailed = true →
        (engStep s (.complete r false)).delivered =
          s.delivered ++ [⟨r.gen, r.task, .result, false⟩]) ∧
    (∀ (s : EngineSt) (r : RunId), r ∈ s.running → s.sendFailed = false →
        (engStep s (.complete r false)).delivered = s.delivered) := by
  refine ⟨fun s tasks sf => rfl, ?_, ?_⟩
  · intro s r h hsf
    rw [engStep, if_pos h]
    simp [outsFor, hsf]
  · intro s r h hsf
    rw [engStep, if_pos h]
    simp [outsFor, hsf]

/-- C10 witness: a failing completion in a generation started with
send_failed_results delivers exactly the failing result. -/
theorem send_failed_results_option_witness :
    (⟨1, 4⟩ : RunId) ∈ [(⟨1, 4⟩ : RunId)] ∧
    (engStep ⟨1, [4], true, [⟨1, 4⟩], []⟩ (.complete ⟨1, 4⟩ false)).delivered =
      [⟨1, 4, .result, false⟩] := by
  refine ⟨by decide, ?_⟩
  have h := send_failed_results_option.2.1 ⟨1, [4], true, [⟨1, 4⟩], []⟩ ⟨1, 4⟩
    (by decide) rfl
  simpa using h

/-! ## Supplementary checks against the remaining test fixtures -/

/-- The projector reproduces every remaining `future_runs_*` vector of
the test file (daily, weekly and monthly, 6am and 6pm variants), all
from reference 2018-11-14T00:00:00Z. -/
theorem future_runs_remaining_test_vectors :
    get_future_runs "06:00:00Z/P1D" "2018-11-14T00:00:00Z" 5 =
      .ok ["2018-11-14T06:00:00Z", "2018-11-15T06:00:00Z", "2018-11-16T06:00:00Z",
           "2018-11-17T06:00:00Z", "2018-11-18T06:00:00Z"] ∧
    get_future_runs "18:00:00Z/P1D" "2018-11-14T00:00:00Z" 5 =
      .ok ["2018-11-14T18:00:00Z", "2018-11-15T18:00:00Z", "2018-11-16T18:00:00Z",
           "2018-11-17T18:00:00Z", "2018-11-18T18:00:00Z"] ∧
    get_future_runs "2018-11-12T06:00:00Z/P1W" "2018-11-14T00:00:00Z" 5 =
      .ok ["2018-11-19T06:00:00Z", "2018-11-26T06:00:00Z", "2018-12-03T06:00:00Z",
           "2018-12-10T06:00:00Z", "2018-12-17T06:00:00Z"] ∧
    get_future_runs "2018-11-12T18:00:00Z/P1W" "2018-11-14T00:00:00Z" 5 =
      .ok ["2018-11-19T18:00:00Z", "2018-11-26T18:00:00Z", "2018-12-03T18:00:00Z",
           "2018-12-10T18:00:00Z", "2018-12-17T18:00:00Z"] ∧
    get_future_runs "2018-11-14T06:00:00Z/P1W" "2018-11-14T00:00:00Z" 5 =
      .ok ["2018-11-14T06:00:00Z", "2018-11-21T06:00:00Z", "2018-11-28T06:00:00Z",
           "2018-12-05T06:00:00Z", "2018-12-12T06:00:00Z"] ∧
    get_future_runs "2018-11-14T18:00:00Z/P1W" "2018-11-14T00:00:00Z" 5 =
      .ok ["2018-11-14T18:00:00Z", "2018-11-21T18:00:00Z", "2018-11-28T18:00:00Z",
           "2018-12-05T18:00:00Z", "2018-12-12T18:00:00Z"] ∧
    get_future_runs "2018-11-16T06:00:00Z/P1W" "2018-11-14T00:00:00Z" 5 =
      .ok ["2018-11-16T06:00:00Z", "2018-11-23T06:00:00Z", "2018-11-30T06:00:00Z",
           "2018-12-07T06:00:00Z", "2018-12-14T06:00:00Z"] ∧
    get_future_runs "2018-11-16T18:00:00Z/P1W" "2018-11-14T00:00:00Z" 5 =
      .ok ["2018-11-16T18:00:00Z", "2018-11-23T18:00:00Z", "2018-11-30T18:00:00Z",
           "2018-12-07T18:00:00Z", "2018-12-14T18:00:00Z"] ∧
    get_future_runs "[2018-11-01T18:00:00Z/P1M, 2018-11-14T18:00:00Z/P1M]"
        "2018-11-14T00:00:00Z" 5 =
      .ok ["2018-11-14T18:00:00Z", "2018-12-01T18:00:00Z", "2018-12-14T18:00:00Z",
           "2019-01-01T18:00:00Z", "2019-01-14T18:00:00Z"] ∧
    get_future_runs "2018-11-01T06:00:00Z/P1M" "2018-11-14T00:00:00Z" 5 =
      .ok ["2018-12-01T06:00:00Z", "2019-01-01T06:00:00Z", "2019-02-01T06:00:00Z",
           "2019-03-01T06:00:00Z", "2019-04-01T06:00:00Z"] ∧
    get_future_runs "2018-11-01T18:00:00Z/P1M" "2018-11-14T00:00:00Z" 5 =
      .ok ["2018-12-01T18:00:00Z", "2019-01-01T18:00:00Z", "2019-02-01T18:00:00Z",
           "2019-03-01T18:00:00Z", "2019-04-01T18:00:00Z"] ∧
    get_future_runs "2018-11-14T06:00:00Z/P1M" "2018-11-14T00:00:00Z" 5 =
      .ok ["2018-11-14T06:00:00Z", "2018-12-14T06:00:00Z", "2019-01-14T06:00:00Z",
           "2019-02-14T06:00:00Z", "2019-03-14T06:00:00Z"] ∧
    get_future_runs "2018-11-14T18:00:00Z/P1M" "2018-11-14T00:00:00Z" 5 =
      .ok ["2018-11-14T18:00:00Z", "2018-12-14T18:00:00Z", "2019-01-14T18:00:00Z",
           "2019-02-14T18:00:00Z", "2019-03-14T18:00:00Z"] := by
  refine ⟨?_, ?_, ?_, ?_, ?_, ?_, ?_, ?_, ?_, ?_, ?_, ?_, ?_⟩ <;> decide

/-- The `start` test fixture: a single `PT1H` task produces exactly
one result (the immediate run-now) within the 10 s window. -/
theorem single_task_runs_once :
    (activationOutputs "PT1H" 0).countP (fun p => p.1 ≤ 10 && p.2 == .result) = 1 := by
  decide

/-- The `explicit_start_time` test fixture: an anchor 10 s in the
future with period `P1D` yields one result within 5 s (the run-now)
and two within 15 s (the anchor has then fired). -/
theorem explicit_start_time_runs :
    (activationOutputs "2018-11-14T00:00:10Z/P1D" 0).countP
        (fun p => p.1 ≤ 5 && p.2 == .result) = 1 ∧
    (activationOutputs "2018-11-14T00:00:10Z/P1D" 0).countP
        (fun p => p.1 ≤ 15 && p.2 == .result) = 2 := by
  exact ⟨by decide, by decide⟩

end Compliance
